import Mathlib

/-!
Verification of the igdb client library (URL builder, option model,
entity accessors) against its design specification.

The Go sources embedded here are `igdb.go` (URL construction, encoding,
transport glue), `game.go` (the Game accessors), the endpoint constants
and `GetEndpointModel`, and the behavior asserted by `pulse_test.go`.
Machine integers are embedded as `Int` (no overflow is reachable in the
embedded code paths), fallible code returns `Except`, and a Go runtime
panic (slice index out of range) is an explicit `GoOutcome.panics` value.
-/

/-- Error sentinels of the library.  `ErrNegativeID` is declared in
`igdb.go`; `ErrEmptyIDs`, `ErrOutOfRange`, `ErrNoResults` and
`errInvalidJSON` are the sentinels the test suite (`pulse_test.go`)
matches against.  `errInvalidJSON` stands for the JSON-decode failure
that `Client.get` propagates on an empty or malformed body. -/
inductive GoError where
  | ErrNegativeID
  | ErrEmptyIDs
  | ErrOutOfRange
  | ErrNoResults
  | errInvalidJSON
  deriving DecidableEq, Repr

/-- The fixed base URL of the API, `igdbURL` in `igdb.go`. -/
def igdbURL : String := "https://api-2445582011268.apicast.io/"

/-- Endpoint path constant `GameEndpoint` from the endpoint enumeration. -/
def GameEndpoint : String := "games/"

/-- Endpoint path constant `PulseEndpoint` from the endpoint enumeration. -/
def PulseEndpoint : String := "pulses/"

/-- Endpoint path constant `FeedEndpoint` from the endpoint enumeration. -/
def FeedEndpoint : String := "feeds/"

/-- Decimal digit character: 0 maps to '0', ..., 9 maps to '9'. -/
def digitChar : Nat → Char
  | 0 => '0'
  | 1 => '1'
  | 2 => '2'
  | 3 => '3'
  | 4 => '4'
  | 5 => '5'
  | 6 => '6'
  | 7 => '7'
  | 8 => '8'
  | 9 => '9'
  | _ => '*'

/-- Decimal digits of a natural number, most significant digit first. -/
def natDigits (n : Nat) : List Char :=
  if n < 10 then [digitChar n]
  else natDigits (n / 10) ++ [digitChar (n % 10)]
termination_by n
decreasing_by exact Nat.div_lt_self (by omega) (by omega)

/-- Embedding of Go `strconv.Itoa`: the decimal representation of an
integer, with a leading minus sign when negative. -/
def itoa (i : Int) : String :=
  if i < 0 then "-" ++ String.mk (natDigits (-i).toNat)
  else String.mk (natDigits i.toNat)

/-- Embedding of Go `strings.Join`: the elements concatenated with the
separator between consecutive elements. -/
def joinSep (sep : String) : List String → String
  | [] => ""
  | [s] => s
  | s :: t :: rest => s ++ sep ++ joinSep sep (t :: rest)

/-- `intsToStrings` from `igdb.go`: the slice of strings equivalent to
the list of ints. -/
def intsToStrings (ints : List Int) : List String := ints.map itoa

/-- `intsToCommaString` from `igdb.go`: a comma separated list of ints
as a single string. -/
def intsToCommaString (ints : List Int) : String :=
  joinSep "," (intsToStrings ints)

/-- Embedding of `strings.Replace(url, " ", "", -1)`: every literal
space character is removed. -/
def stripSpaces (s : String) : String :=
  String.mk (s.data.filter (fun c => c ≠ ' '))

/-- `encodeURL` from `igdb.go`.  The Go function receives an `Encoder`
and calls its `Encode()` method once; the embedding receives the encoded
option string `enc` directly.  Spaces are stripped from the URL, then
`?` and the encoded options are appended only when the encoded string is
non-empty. -/
def encodeURL (enc : String) (url : String) : String :=
  let url := stripSpaces url
  if enc ≠ "" then url ++ "?" ++ enc else url

/-- The path part of a URL: the characters before the first `?`. -/
def urlPath (u : String) : String :=
  String.mk (u.data.takeWhile (fun c => c ≠ '?'))

/-- Modelled from the spec: the functional options (`SetFields`,
`SetFilter`, `SetOrder`, `SetLimit`, `SetOffset`, and the internal
search directive) are declared outside the files under `src/`; only the
spec (section 4.1) and the test suite describe them.  Each variant is
one query directive. -/
inductive OptionFunc where
  | setFields (names : List String)
  | setFilter (field op value : String)
  | setOrder (field dir : String)
  | setLimit (n : Int)
  | setOffset (n : Int)
  | setSearch (q : String)
  deriving DecidableEq, Repr

/-- Modelled from the spec: the accumulated `OptionSet` builder (spec
section 4.1).  Fields and filters accumulate; order, limit, offset and
search are last-write-wins. -/
structure Options where
  fields : List String
  filters : List (String × String × String)
  order : Option (String × String)
  limit : Option Int
  offset : Option Int
  search : Option String
  deriving DecidableEq, Repr

/-- The empty option set a builder starts from. -/
def noOptions : Options := ⟨[], [], none, none, none, none⟩

/-- Modelled from the spec: applying one option directive to the
builder (spec section 4.1: accumulative for fields and filters,
last-write-wins for order, limit, offset and search). -/
def applyOpt (o : Options) : OptionFunc → Options
  | .setFields ns => { o with fields := o.fields ++ ns }
  | .setFilter f op v => { o with filters := o.filters ++ [(f, op, v)] }
  | .setOrder f d => { o with order := some (f, d) }
  | .setLimit n => { o with limit := some n }
  | .setOffset n => { o with offset := some n }
  | .setSearch q => { o with search := some q }

/-- Limit validity at finalization: absent, or in [1, 50] (spec:
`SetLimit(n)` fails validation if n ≤ 0 or n > 50). -/
def limitOK : Option Int → Bool
  | none => true
  | some n => decide (1 ≤ n) && decide (n ≤ 50)

/-- Offset validity at finalization: absent, or non-negative (spec:
`SetOffset(n)` fails validation if n < 0). -/
def offsetOK : Option Int → Bool
  | none => true
  | some n => decide (0 ≤ n)

/-- Modelled from the spec: `newOpt` (referenced by `singleURL`,
`multiURL` and `searchURL` in `igdb.go` but declared outside `src/`)
applies every directive to the builder and validates the finalized set
once, producing the whole set or a single out-of-range error (spec
section 4.1). -/
def newOpt (opts : List OptionFunc) : Except GoError Options :=
  let o := opts.foldl applyOpt noOptions
  if limitOK o.limit && offsetOK o.offset then Except.ok o
  else Except.error GoError.ErrOutOfRange

/-- Modelled from the spec: the query-string encoding of a finalized
option set, with the illustrative key shapes of spec section 6
(`fields=`, `filter[f][op]=`, `order=`, `limit=`, `offset=`,
`search=`), ampersand-joined; an empty option set encodes to the empty
string. -/
def optEncode (o : Options) : String :=
  let parts :=
    (if o.fields = [] then [] else ["fields=" ++ joinSep "," o.fields])
    ++ o.filters.map (fun fov => "filter[" ++ fov.1 ++ "][" ++ fov.2.1 ++ "]=" ++ fov.2.2)
    ++ (match o.order with
        | none => []
        | some fd => ["order=" ++ fd.1 ++ ":" ++ fd.2])
    ++ (match o.limit with
        | none => []
        | some n => ["limit=" ++ itoa n])
    ++ (match o.offset with
        | none => []
        | some n => ["offset=" ++ itoa n])
    ++ (match o.search with
        | none => []
        | some q => ["search=" ++ q])
  joinSep "&" parts

/-- `singleURL` from `igdb.go`: reject a negative ID, then finalize the
options, then append the decimal ID to the endpoint path and encode. -/
def singleURL (rootURL endp : String) (id : Int) (opts : List OptionFunc) :
    Except GoError String :=
  if id < 0 then Except.error GoError.ErrNegativeID
  else
    match newOpt opts with
    | Except.error e => Except.error e
    | Except.ok opt =>
        Except.ok (encodeURL (optEncode opt) (rootURL ++ endp ++ itoa id))

/-- `multiURL` from `igdb.go`: reject any negative ID (the loop aborts
at the first violation), then finalize the options, then append the
comma-joined decimal ID list to the endpoint path and encode.  Note the
source performs no emptiness check on `ids`. -/
def multiURL (rootURL endp : String) (ids : List Int) (opts : List OptionFunc) :
    Except GoError String :=
  if ids.any (fun i => decide (i < 0)) then Except.error GoError.ErrNegativeID
  else
    match newOpt opts with
    | Except.error e => Except.error e
    | Except.ok opt =>
        Except.ok (encodeURL (optEncode opt) (rootURL ++ endp ++ intsToCommaString ids))

/-- `searchURL` from `igdb.go`: inject the query as a search directive,
finalize the options, and encode against the bare endpoint path. -/
def searchURL (rootURL endp : String) (qry : String) (opts : List OptionFunc) :
    Except GoError String :=
  match newOpt (opts ++ [OptionFunc.setSearch qry]) with
  | Except.error e => Except.error e
  | Except.ok opt => Except.ok (encodeURL (optEncode opt) (rootURL ++ endp))

/-- A response body for a list-shaped destination, as seen after
`Client.get` has read it: either it fails to parse (empty or malformed,
in which case `get` propagates the JSON decode error) or it parses to a
list of entities (an empty JSON array parses to the empty list). -/
inductive Body (α : Type) where
  | malformed
  | parsed (xs : List α)
  deriving DecidableEq, Repr

/-- Outcome of a Go call: a value, a returned error, or a runtime
panic (such as a slice index out of range). -/
inductive GoOutcome (α : Type) where
  | ok (a : α)
  | err (e : GoError)
  | panics
  deriving DecidableEq, Repr

/-- A call outcome together with whether the HTTP transport was
invoked (whether `Client.get` was reached). -/
structure CallTrace (α : Type) where
  outcome : GoOutcome α
  networkCalled : Bool
  deriving DecidableEq, Repr

/-- The `Game` entity record of `game.go`, with representative fields.
The accessor logic never inspects the entity's fields, and the spec
(section 1) excludes the per-entity field structures as pass-through
data shapes, so the remaining fields are omitted. -/
structure Game where
  id : Int
  name : String
  slug : String
  url : String
  deriving DecidableEq, Repr

/-- `GetGame` from `game.go`: build the single-entity URL (propagating
its error without any network call), issue the GET into a `[]Game`
destination, and return `&g[0]` — the source indexes the first element
of the decoded slice without checking that it is non-empty, so an
empty-array body reaches an out-of-range index, a panic. -/
def GetGame (rootURL : String) (id : Int) (opts : List OptionFunc)
    (resp : Body Game) : CallTrace Game :=
  match singleURL rootURL GameEndpoint id opts with
  | Except.error e => ⟨GoOutcome.err e, false⟩
  | Except.ok _ =>
      match resp with
      | Body.malformed => ⟨GoOutcome.err GoError.errInvalidJSON, true⟩
      | Body.parsed [] => ⟨GoOutcome.panics, true⟩
      | Body.parsed (g :: _) => ⟨GoOutcome.ok g, true⟩

/-- `GetGames` from `game.go`: build the multi-entity URL (propagating
its error without any network call), issue the GET into a list
destination, and return the decoded slice as is — the source checks
neither for an empty `ids` argument nor for an empty result. -/
def GetGames (rootURL : String) (ids : List Int) (opts : List OptionFunc)
    (resp : Body Game) : CallTrace (List Game) :=
  match multiURL rootURL GameEndpoint ids opts with
  | Except.error e => ⟨GoOutcome.err e, false⟩
  | Except.ok _ =>
      match resp with
      | Body.malformed => ⟨GoOutcome.err GoError.errInvalidJSON, true⟩
      | Body.parsed g => ⟨GoOutcome.ok g, true⟩

/-- `SearchGames` from `game.go`: build the search URL, issue the GET
into a list destination, and return the decoded slice as is. -/
def SearchGames (rootURL : String) (qry : String) (opts : List OptionFunc)
    (resp : Body Game) : CallTrace (List Game) :=
  match searchURL rootURL GameEndpoint qry opts with
  | Except.error e => ⟨GoOutcome.err e, false⟩
  | Except.ok _ =>
      match resp with
      | Body.malformed => ⟨GoOutcome.err GoError.errInvalidJSON, true⟩
      | Body.parsed g => ⟨GoOutcome.ok g, true⟩

/-- The URL `GetEndpointModel` requests: the endpoint path with the
`meta` suffix. -/
def endpointModelURL (rootURL endp : String) : String :=
  rootURL ++ endp ++ "meta"

/-- `GetEndpointModel` (the Fields introspection accessor): GET the
`meta` URL into a `[]string` destination and return the decoded list
exactly as decoded — the source applies no sorting. -/
def GetEndpointModel (rootURL endp : String) (resp : Body String) :
    CallTrace (List String) :=
  match resp with
  | Body.malformed => ⟨GoOutcome.err GoError.errInvalidJSON, true⟩
  | Body.parsed f => ⟨GoOutcome.ok f, true⟩

/-- A response body for the count-shaped destination: a JSON object
with a count field, a bare empty JSON array, or an empty/malformed
body. -/
inductive CountBody where
  | countObj (n : Int)
  | emptyArray
  | malformed
  deriving DecidableEq, Repr

/-- Modelled from the spec: the `Count` accessor is declared outside
`src/` (only `pulse_test.go` exercises it).  Per spec section 4.4 and
the test rows: option validation happens first (before any network
call); then a body parsing as a bare empty array yields `ErrNoResults`,
a count object yields its count, and an empty or malformed body yields
the invalid-JSON condition. -/
def Count (opts : List OptionFunc) (resp : CountBody) : CallTrace Int :=
  match newOpt opts with
  | Except.error e => ⟨GoOutcome.err e, false⟩
  | Except.ok _ =>
      match resp with
      | CountBody.malformed => ⟨GoOutcome.err GoError.errInvalidJSON, true⟩
      | CountBody.emptyArray => ⟨GoOutcome.err GoError.ErrNoResults, true⟩
      | CountBody.countObj n => ⟨GoOutcome.ok n, true⟩

/-! ### Basic string and character lemmas -/

theorem string_data_append (s t : String) : (s ++ t).data = s.data ++ t.data := by
  cases s; cases t; rfl

theorem string_mk_data (s : String) : String.mk s.data = s := by
  cases s; rfl

theorem digitChar_ne (m : Nat) (h : m < 10) : digitChar m ≠ ' ' ∧ digitChar m ≠ '?' := by
  interval_cases m <;> exact ⟨by decide, by decide⟩

theorem natDigits_chars (n : Nat) : ∀ c ∈ natDigits n, c ≠ ' ' ∧ c ≠ '?' := by
  induction n using Nat.strong_induction_on with
  | _ n ih =>
    intro c hc
    rw [natDigits] at hc
    by_cases h : n < 10
    · rw [if_pos h] at hc
      simp only [List.mem_singleton] at hc
      exact hc ▸ digitChar_ne n h
    · rw [if_neg h] at hc
      rcases List.mem_append.mp hc with h1 | h2
      · exact ih (n / 10) (Nat.div_lt_self (by omega) (by omega)) c h1
      · simp only [List.mem_singleton] at h2
        exact h2 ▸ digitChar_ne (n % 10) (Nat.mod_lt n (by omega))

theorem itoa_chars (i : Int) (h : 0 ≤ i) :
    ∀ c ∈ (itoa i).data, c ≠ ' ' ∧ c ≠ '?' := by
  intro c hc
  rw [itoa, if_neg (Int.not_lt.mpr h)] at hc
  exact natDigits_chars i.toNat c hc

theorem joinSep_chars (P : Char → Prop) (sep : String)
    (hsep : ∀ c ∈ sep.data, P c) :
    ∀ l : List String, (∀ s ∈ l, ∀ c ∈ s.data, P c) →
      ∀ c ∈ (joinSep sep l).data, P c := by
  intro l
  induction l with
  | nil => intro _ c hc; simp [joinSep] at hc
  | cons s t ih =>
    cases t with
    | nil =>
      intro h c hc
      exact h s (List.mem_singleton_self s) c hc
    | cons u v =>
      intro h c hc
      rw [joinSep, string_data_append, string_data_append] at hc
      rcases List.mem_append.mp hc with h1 | h2
      · rcases List.mem_append.mp h1 with h3 | h4
        · exact h s (by simp) c h3
        · exact hsep c h4
      · exact ih (fun x hx => h x (List.mem_cons_of_mem s hx)) c h2

theorem intsToCommaString_chars (ids : List Int) (h : ∀ i ∈ ids, 0 ≤ i) :
    ∀ c ∈ (intsToCommaString ids).data, c ≠ ' ' ∧ c ≠ '?' := by
  refine joinSep_chars (fun c => c ≠ ' ' ∧ c ≠ '?') "," (by decide) _ ?_
  intro s hs
  rcases List.mem_map.mp hs with ⟨i, hi, rfl⟩
  exact itoa_chars i (h i hi)

theorem stripSpaces_no_space (s : String) : ∀ c ∈ (stripSpaces s).data, c ≠ ' ' := by
  intro c hc
  have := List.of_mem_filter hc
  simpa using this

theorem stripSpaces_eq_self (s : String) (h : ∀ c ∈ s.data, c ≠ ' ') :
    stripSpaces s = s := by
  unfold stripSpaces
  rw [List.filter_eq_self.mpr (fun c hc => by simpa using h c hc)]

theorem string_append_assoc (s t u : String) : s ++ t ++ u = s ++ (t ++ u) := by
  cases s; cases t; cases u
  show String.mk _ = String.mk _
  rw [List.append_assoc]

theorem encodeURL_eq (enc url : String) :
    encodeURL enc url = stripSpaces url ++ (if enc = "" then "" else "?" ++ enc) := by
  unfold encodeURL
  by_cases h : enc = ""
  · simp [h]
  · simp [h, string_append_assoc]

theorem takeWhile_append_of_all (p : Char → Bool) (l₁ l₂ : List Char)
    (h : ∀ c ∈ l₁, p c = true) :
    (l₁ ++ l₂).takeWhile p = l₁ ++ l₂.takeWhile p := by
  induction l₁ with
  | nil => rfl
  | cons c l ih =>
    have hc : p c = true := h c (List.mem_cons_self c l)
    simp only [List.cons_append, List.takeWhile_cons, hc]
    simp [ih (fun x hx => h x (List.mem_cons_of_mem c hx))]

theorem urlPath_of_clean (u suffix : String) (hu : ∀ c ∈ u.data, c ≠ '?')
    (hsuffix : suffix = "" ∨ ∃ q : String, suffix = "?" ++ q) :
    urlPath (u ++ suffix) = u := by
  have hall : ∀ c ∈ u.data, (fun c => decide (c ≠ '?')) c = true := by
    intro c hc; simpa using hu c hc
  rcases hsuffix with h | ⟨q, h⟩
  · subst h
    unfold urlPath
    rw [string_data_append, takeWhile_append_of_all _ _ _ hall]
    simp [string_mk_data]
  · subst h
    unfold urlPath
    rw [string_data_append, takeWhile_append_of_all _ _ _ hall]
    have : ("?" ++ q).data = '?' :: q.data := by
      rw [string_data_append]; rfl
    rw [this]
    simp [string_mk_data]

theorem multiURL_negative_member (r e : String) (ids : List Int)
    (opts : List OptionFunc) :
    (∃ i ∈ ids, i < 0) → multiURL r e ids opts = Except.error GoError.ErrNegativeID := by
  intro ⟨i, hi, hneg⟩
  have : ids.any (fun i => decide (i < 0)) = true :=
    List.any_eq_true.mpr ⟨i, hi, by simpa using hneg⟩
  simp [multiURL, this]

/-! ### Claim theorems -/

/-- C1: the claim says an empty-array response makes Get/List/Search
return `ErrNoResults` and never panic.  Evaluating the source at that
input shows otherwise: `GetGame` indexes the first element of the empty
decoded slice and panics, while `GetGames` and `SearchGames` return the
empty list with no error; `ErrNoResults` is never produced. -/
theorem getGame_empty_array_eval :
    GetGame igdbURL 0 [] (Body.parsed ([] : List Game)) = ⟨GoOutcome.panics, true⟩ ∧
    GetGames igdbURL [1, 2] [] (Body.parsed ([] : List Game)) = ⟨GoOutcome.ok [], true⟩ ∧
    SearchGames igdbURL "zelda" [] (Body.parsed ([] : List Game)) = ⟨GoOutcome.ok [], true⟩ :=
  ⟨rfl, rfl, rfl⟩

/-- C2: a negative id makes `GetGame` return `ErrNegativeID` without
invoking the transport (the outcome is the same for every response and
the network flag stays false), and a non-negative id proceeds to build
the URL: `singleURL` then is exactly the finalized-option encoding of
the endpoint path with the decimal id appended. -/
theorem getGame_negative_id_no_network (id : Int) (opts : List OptionFunc)
    (resp : Body Game) :
    (id < 0 → GetGame igdbURL id opts resp = ⟨GoOutcome.err GoError.ErrNegativeID, false⟩) ∧
    (0 ≤ id → singleURL igdbURL GameEndpoint id opts =
      (newOpt opts).map (fun o => encodeURL (optEncode o) (igdbURL ++ GameEndpoint ++ itoa id))) := by
  constructor
  · intro hid
    simp [GetGame, singleURL, hid]
  · intro hid
    rw [singleURL, if_neg (Int.not_lt.mpr hid)]
    cases h : newOpt opts <;> simp [Except.map]

/-- Witness for C2 at id = -1 (with a would-be-decodable response) and
at id = 3. -/
theorem getGame_negative_id_no_network_witness :
    GetGame igdbURL (-1) [] (Body.parsed ([] : List Game))
      = ⟨GoOutcome.err GoError.ErrNegativeID, false⟩ ∧
    singleURL igdbURL GameEndpoint 3 [] =
      (newOpt []).map (fun o => encodeURL (optEncode o) (igdbURL ++ GameEndpoint ++ itoa 3)) :=
  ⟨(getGame_negative_id_no_network (-1) [] (Body.parsed [])).1 (by decide),
   (getGame_negative_id_no_network 3 [] (Body.parsed [])).2 (by decide)⟩

/-- C3: the claim says `List([])` fails with `ErrEmptyIDs` before any
network call.  Evaluating the source at the empty id list shows the
check does not exist: `multiURL` happily builds the bare endpoint URL
(the index URL) and `GetGames` performs the GET (network flag true) and
returns the decoded body with no error. -/
theorem getGames_empty_ids_eval :
    GetGames igdbURL [] [] (Body.parsed ([] : List Game)) = ⟨GoOutcome.ok [], true⟩ ∧
    multiURL igdbURL GameEndpoint [] [] =
      Except.ok "https://api-2445582011268.apicast.io/games/" :=
  ⟨rfl, rfl⟩

/-- C9: for a non-negative id, the multi-entity URL built from the
singleton list equals the single-entity URL, for every endpoint, root
and option list, in both the success and the error outcome. -/
theorem multiURL_singleton_eq_singleURL (r e : String) (id : Int)
    (opts : List OptionFunc) (h : 0 ≤ id) :
    multiURL r e [id] opts = singleURL r e id opts := by
  have hneg : ¬id < 0 := Int.not_lt.mpr h
  simp [multiURL, singleURL, hneg, intsToCommaString, intsToStrings, joinSep]

/-- Witness for C9 at id = 7 on the games endpoint. -/
theorem multiURL_singleton_eq_singleURL_witness :
    multiURL igdbURL GameEndpoint [7] [] = singleURL igdbURL GameEndpoint 7 [] :=
  multiURL_singleton_eq_singleURL igdbURL GameEndpoint 7 [] (by decide)

/-- C10: the negative-ID checks run before the options are finalized,
so for every option list — including invalid ones — a negative id makes
`singleURL` return `ErrNegativeID`, and any negative member makes
`multiURL` return `ErrNegativeID`. -/
theorem id_validation_precedes_options (r e : String) (id : Int)
    (ids : List Int) (opts : List OptionFunc) :
    (id < 0 → singleURL r e id opts = Except.error GoError.ErrNegativeID) ∧
    ((∃ i ∈ ids, i < 0) → multiURL r e ids opts = Except.error GoError.ErrNegativeID) := by
  constructor
  · intro hid
    simp [singleURL, hid]
  · exact multiURL_negative_member r e ids opts

/-- Witness for C10: id = -1 and ids = [3, -2] with an option list that
would itself fail validation, showing the negative-ID error wins. -/
theorem id_validation_precedes_options_witness :
    singleURL igdbURL GameEndpoint (-1) [OptionFunc.setOffset (-99999)]
      = Except.error GoError.ErrNegativeID ∧
    multiURL igdbURL GameEndpoint [3, -2] [OptionFunc.setOffset (-99999)]
      = Except.error GoError.ErrNegativeID :=
  ⟨(id_validation_precedes_options igdbURL GameEndpoint (-1) [] [OptionFunc.setOffset (-99999)]).1
      (by decide),
   (id_validation_precedes_options igdbURL GameEndpoint 0 [3, -2] [OptionFunc.setOffset (-99999)]).2
      ⟨-2, by decide, by decide⟩⟩

/-- C5: limit and offset are validated when the option set is
finalized: an out-of-range limit (n ≤ 0 or n > 50) or a negative offset
invalidates the whole set with `ErrOutOfRange`, in-range values
succeed, and through an accessor the failure happens before any network
call (the trace's network flag is false for every response). -/
theorem optionSet_limit_offset_validation (n m : Int) :
    ((n ≤ 0 ∨ 50 < n) → newOpt [OptionFunc.setLimit n] = Except.error GoError.ErrOutOfRange) ∧
    (1 ≤ n → n ≤ 50 → newOpt [OptionFunc.setLimit n] =
      Except.ok { noOptions with limit := some n }) ∧
    (m < 0 → newOpt [OptionFunc.setOffset m] = Except.error GoError.ErrOutOfRange) ∧
    (0 ≤ m → newOpt [OptionFunc.setOffset m] =
      Except.ok { noOptions with offset := some m }) ∧
    (∀ (id : Int) (resp : Body Game), 0 ≤ id → m < 0 →
      GetGame igdbURL id [OptionFunc.setOffset m] resp =
        ⟨GoOutcome.err GoError.ErrOutOfRange, false⟩) := by
  refine ⟨?_, ?_, ?_, ?_, ?_⟩
  · intro h
    simp only [newOpt, List.foldl, applyOpt, noOptions, limitOK, offsetOK]
    rw [if_neg]
    simp only [Bool.and_eq_true, decide_eq_true_eq, not_and]
    omega
  · intro h1 h2
    simp only [newOpt, List.foldl, applyOpt, noOptions, limitOK, offsetOK]
    rw [if_pos]
    simp only [Bool.and_eq_true, decide_eq_true_eq, and_true]
    omega
  · intro h
    simp only [newOpt, List.foldl, applyOpt, noOptions, limitOK, offsetOK]
    rw [if_neg]
    simp only [Bool.and_eq_true, decide_eq_true_eq, true_and]
    omega
  · intro h
    simp only [newOpt, List.foldl, applyOpt, noOptions, limitOK, offsetOK]
    rw [if_pos]
    simp only [Bool.and_eq_true, decide_eq_true_eq, true_and]
    omega
  · intro id resp hid hm
    have hopt : newOpt [OptionFunc.setOffset m] = Except.error GoError.ErrOutOfRange := by
      simp only [newOpt, List.foldl, applyOpt, noOptions, limitOK, offsetOK]
      rw [if_neg]
      simp only [Bool.and_eq_true, decide_eq_true_eq, true_and]
      omega
    simp [GetGame, singleURL, Int.not_lt.mpr hid, hopt]

/-- Witness for C5: limit 51 and 0 fail, limit 5 succeeds, offset -1
fails, offset 0 succeeds, and `GetGame(5, SetOffset(-99999))` fails
with `ErrOutOfRange` with no network call. -/
theorem optionSet_limit_offset_validation_witness :
    newOpt [OptionFunc.setLimit 51] = Except.error GoError.ErrOutOfRange ∧
    newOpt [OptionFunc.setLimit 0] = Except.error GoError.ErrOutOfRange ∧
    newOpt [OptionFunc.setLimit 5] = Except.ok { noOptions with limit := some 5 } ∧
    newOpt [OptionFunc.setOffset (-1)] = Except.error GoError.ErrOutOfRange ∧
    newOpt [OptionFunc.setOffset 0] = Except.ok { noOptions with offset := some 0 } ∧
    GetGame igdbURL 5 [OptionFunc.setOffset (-99999)] Body.malformed =
      ⟨GoOutcome.err GoError.ErrOutOfRange, false⟩ :=
  ⟨(optionSet_limit_offset_validation 51 0).1 (Or.inr (by decide)),
   (optionSet_limit_offset_validation 0 0).1 (Or.inl (by decide)),
   (optionSet_limit_offset_validation 5 0).2.1 (by decide) (by decide),
   (optionSet_limit_offset_validation 5 (-1)).2.2.1 (by decide),
   (optionSet_limit_offset_validation 5 0).2.2.2.1 (by decide),
   (optionSet_limit_offset_validation 5 (-99999)).2.2.2.2 5 Body.malformed
     (by decide) (by decide)⟩

/-- C6 counterexample: the claim says the result of `encodeURL` — for
every input URL and every encoder — has all literal spaces stripped.
The code only strips the URL before appending the query, so an encoded
option string containing a space survives into the result. -/
theorem encodeURL_space_counterexample :
    encodeURL "a b" "x y" = "xy?a b" ∧ ' ' ∈ (encodeURL "a b" "x y").data :=
  ⟨rfl, by decide⟩

/-- C6 amended: `encodeURL` strips every literal space from the input
URL (not merely percent-encoding them) before appending the query, and
appends `?` plus the encoded option string only when that string is
non-empty — when it is empty the result is exactly the input URL with
spaces removed; the full result is space-free whenever the encoded
option string itself contains no literal space. -/
theorem encodeURL_amended (enc url : String) :
    encodeURL enc url = stripSpaces url ++ (if enc = "" then "" else "?" ++ enc) ∧
    (∀ c ∈ (stripSpaces url).data, c ≠ ' ') ∧
    (enc = "" → encodeURL enc url = stripSpaces url) ∧
    ((∀ c ∈ enc.data, c ≠ ' ') → ∀ c ∈ (encodeURL enc url).data, c ≠ ' ') := by
  refine ⟨encodeURL_eq enc url, stripSpaces_no_space url, ?_, ?_⟩
  · intro h
    rw [encodeURL_eq, h]
    simp
  · intro henc c hc
    rw [encodeURL_eq] at hc
    rw [string_data_append] at hc
    rcases List.mem_append.mp hc with h1 | h2
    · exact stripSpaces_no_space url c h1
    · by_cases h : enc = ""
      · rw [if_pos h] at h2
        simp at h2
      · rw [if_neg h, string_data_append] at h2
        rcases List.mem_append.mp h2 with h3 | h4
        · simp only [show ("?" : String).data = ['?'] from rfl] at h3
          simp at h3
          subst h3
          decide
        · exact henc c h4

/-- Witness for C6 amended: an empty encoded string appends no `?`,
and a space-free encoded string yields a space-free URL. -/
theorem encodeURL_amended_witness :
    encodeURL "" "a b" = stripSpaces "a b" ∧
    (∀ c ∈ (encodeURL "fields=name" "a b").data, c ≠ ' ') :=
  ⟨(encodeURL_amended "" "a b").2.2.1 rfl,
   (encodeURL_amended "fields=name" "a b").2.2.2 (by decide)⟩

/-- C7 counterexample: the claim says Fields introspection returns the
dot-qualified names sorted lexically regardless of response order.  The
source returns the decoded list untouched: the response listing
"logo.url" before "background.id" comes back in that order, not in the
sorted order. -/
theorem fields_not_sorted_counterexample :
    (GetEndpointModel igdbURL PulseEndpoint
        (Body.parsed ["logo.url", "background.id"])).outcome
      = GoOutcome.ok ["logo.url", "background.id"] ∧
    (GetEndpointModel igdbURL PulseEndpoint
        (Body.parsed ["logo.url", "background.id"])).outcome
      ≠ GoOutcome.ok ["background.id", "logo.url"] :=
  ⟨rfl, by decide⟩

/-- C7 amended: Fields introspection requests the endpoint path with
the `meta` suffix and returns the decoded field names in exactly the
order the response body lists them (no sorting is applied); a parsed
empty array is a valid empty result and a malformed body is the
invalid-JSON condition. -/
theorem fields_returned_in_response_order (r e : String) (xs : List String) :
    GetEndpointModel r e (Body.parsed xs) = ⟨GoOutcome.ok xs, true⟩ ∧
    GetEndpointModel r e Body.malformed =
      ⟨GoOutcome.err GoError.errInvalidJSON, true⟩ ∧
    endpointModelURL r e = r ++ e ++ "meta" :=
  ⟨rfl, rfl, rfl⟩

/-- C8 counterexample: the claim quantifies over every option list, but
an option list that fails validation makes `Count` fail with
`ErrOutOfRange` before the body is examined — against the bare empty
array it does not return `ErrNoResults`, and against a malformed body
it does not return the invalid-JSON condition (this is the test row
asserting `SetLimit(-100)` yields `ErrOutOfRange` on an empty body). -/
theorem count_option_error_counterexample :
    Count [OptionFunc.setLimit (-100)] CountBody.emptyArray
      = ⟨GoOutcome.err GoError.ErrOutOfRange, false⟩ ∧
    Count [OptionFunc.setLimit (-100)] CountBody.malformed
      = ⟨GoOutcome.err GoError.ErrOutOfRange, false⟩ ∧
    GoOutcome.err GoError.ErrOutOfRange ≠
      (GoOutcome.err GoError.ErrNoResults : GoOutcome Int) :=
  ⟨rfl, rfl, by decide⟩

/-- C8 amended: for every option list that passes validation, `Count`
returns `ErrNoResults` on a bare empty-array body (rather than count
0), the count on a count-object body, and the invalid-JSON condition on
an empty or malformed body; an option list failing validation makes
`Count` fail with that validation error before any network call. -/
theorem count_behavior (opts : List OptionFunc) (o : Options) (n : Int)
    (ho : newOpt opts = Except.ok o) :
    Count opts CountBody.emptyArray = ⟨GoOutcome.err GoError.ErrNoResults, true⟩ ∧
    Count opts (CountBody.countObj n) = ⟨GoOutcome.ok n, true⟩ ∧
    Count opts CountBody.malformed = ⟨GoOutcome.err GoError.errInvalidJSON, true⟩ ∧
    (∀ (opts2 : List OptionFunc) (e : GoError), newOpt opts2 = Except.error e →
      ∀ b, Count opts2 b = ⟨GoOutcome.err e, false⟩) := by
  refine ⟨by simp [Count, ho], by simp [Count, ho], by simp [Count, ho], ?_⟩
  intro opts2 e he b
  simp [Count, he]

/-- Witness for C8 amended at the empty option list and count 100. -/
theorem count_behavior_witness :
    Count [] CountBody.emptyArray = ⟨GoOutcome.err GoError.ErrNoResults, true⟩ ∧
    Count [] (CountBody.countObj 100) = ⟨GoOutcome.ok 100, true⟩ ∧
    Count [] CountBody.malformed = ⟨GoOutcome.err GoError.errInvalidJSON, true⟩ :=
  ⟨(count_behavior [] noOptions 100 rfl).1,
   (count_behavior [] noOptions 100 rfl).2.1,
   (count_behavior [] noOptions 100 rfl).2.2.1⟩

/-- C4: for a non-empty list of non-negative ids (with options that
pass validation, and an endpoint path free of spaces and question
marks, as every endpoint constant is), multi-entity URL construction
succeeds and the path of the resulting URL is the base URL, then the
endpoint path, then the decimal representations of the ids joined by
commas in input order; a list containing any negative id yields
`ErrNegativeID`. -/
theorem multiURL_comma_joined_path (e : String) (ids : List Int)
    (opts : List OptionFunc) (o : Options)
    (he : ∀ c ∈ e.data, c ≠ ' ' ∧ c ≠ '?')
    (hids : ∀ i ∈ ids, 0 ≤ i) (hne : ids ≠ [])
    (ho : newOpt opts = Except.ok o) :
    multiURL igdbURL e ids opts =
      Except.ok (encodeURL (optEncode o) (igdbURL ++ e ++ intsToCommaString ids)) ∧
    urlPath (encodeURL (optEncode o) (igdbURL ++ e ++ intsToCommaString ids)) =
      igdbURL ++ e ++ intsToCommaString ids ∧
    intsToCommaString ids = joinSep "," (ids.map itoa) ∧
    ∀ ids2 : List Int, (∃ i ∈ ids2, i < 0) →
      multiURL igdbURL e ids2 opts = Except.error GoError.ErrNegativeID := by
  have hroot : ∀ c ∈ igdbURL.data, c ≠ ' ' ∧ c ≠ '?' := by decide
  have hu : ∀ c ∈ (igdbURL ++ e ++ intsToCommaString ids).data, c ≠ ' ' ∧ c ≠ '?' := by
    intro c hc
    rw [string_data_append, string_data_append] at hc
    rcases List.mem_append.mp hc with h1 | h2
    · rcases List.mem_append.mp h1 with h3 | h4
      · exact hroot c h3
      · exact he c h4
    · exact intsToCommaString_chars ids hids c h2
  refine ⟨?_, ?_, rfl, fun ids2 => multiURL_negative_member igdbURL e ids2 opts⟩
  · have hany : ids.any (fun i => decide (i < 0)) = false := by
      rw [List.any_eq_false]
      intro i hi
      simpa using Int.not_lt.mpr (hids i hi)
    simp [multiURL, hany, ho]
  · rw [encodeURL_eq, stripSpaces_eq_self _ (fun c hc => (hu c hc).1)]
    refine urlPath_of_clean _ _ (fun c hc => (hu c hc).2) ?_
    by_cases hoe : optEncode o = ""
    · rw [if_pos hoe]
      exact Or.inl rfl
    · rw [if_neg hoe]
      exact Or.inr ⟨optEncode o, rfl⟩

/-- Witness for C4 on the games endpoint with ids [1, 22, 333] and no
options: the built URL is the comma-joined id list appended to the
endpoint path, and [1, -2] fails with `ErrNegativeID`. -/
theorem multiURL_comma_joined_path_witness :
    multiURL igdbURL GameEndpoint [1, 22, 333] [] =
      Except.ok (encodeURL (optEncode noOptions)
        (igdbURL ++ GameEndpoint ++ intsToCommaString [1, 22, 333])) ∧
    urlPath (encodeURL (optEncode noOptions)
        (igdbURL ++ GameEndpoint ++ intsToCommaString [1, 22, 333])) =
      igdbURL ++ GameEndpoint ++ intsToCommaString [1, 22, 333] ∧
    multiURL igdbURL GameEndpoint [1, -2] [] = Except.error GoError.ErrNegativeID :=
  ⟨(multiURL_comma_joined_path GameEndpoint [1, 22, 333] [] noOptions
      (by decide) (by decide) (by decide) rfl).1,
   (multiURL_comma_joined_path GameEndpoint [1, 22, 333] [] noOptions
      (by decide) (by decide) (by decide) rfl).2.1,
   (multiURL_comma_joined_path GameEndpoint [1, 22, 333] [] noOptions
      (by decide) (by decide) (by decide) rfl).2.2.2 [1, -2] ⟨-2, by decide, by decide⟩⟩
